import Mathlib

/-!
Shallow embedding of the S3-SQS notification-infrastructure test harness
(`test_infrastructure.py`) and its companion compute function
(`lambda_function.py`).

External collaborators (the AWS service clients and `json.loads`) are passed
in as function-valued parameters returning `Except`: a `.error` value models
the Python call raising the corresponding exception, a `.ok` value models a
normal return.  Time is modelled as a natural-number clock; `time.sleep(d)`
advances the clock by `d`, and service calls are treated as instantaneous.
-/

/-- A `botocore.exceptions.ClientError` raised by an AWS client call. -/
structure ClientError where
  msg : String
deriving DecidableEq

/-- A `json.JSONDecodeError` raised by `json.loads`. -/
structure JsonError where
  msg : String
deriving DecidableEq

/-! ### Object-Store Watcher (`wait_for_s3_objects`, lines 109-134)

The S3 `list_objects_v2` response carries a `KeyCount` field and a
`Contents` listing; the code tests `KeyCount > 0` and returns `Contents`. -/

/-- Model of the `list_objects_v2` response body. -/
structure S3Listing where
  keyCount : Nat
  contents : List String
deriving DecidableEq

/-- The `while time.time() < end_time` polling loop of `wait_for_s3_objects`:
at clock `now`, exit with `[]` once `now` has reached `endTime`; otherwise
list the bucket (a `.error` models `ClientError`, which the code catches and
converts to `return []`), return `Contents` if `KeyCount > 0`, and otherwise
sleep 10 seconds and iterate.  Returns the result together with the clock
value at the moment of return. -/
def pollLoop (listS3 : Nat → Except ClientError S3Listing) (endTime : Nat)
    (now : Nat) : List String × Nat :=
  if _h : now < endTime then
    match listS3 now with
    | .error _ => ([], now)
    | .ok l =>
      if 0 < l.keyCount then (l.contents, now)
      else pollLoop listS3 endTime (now + 10)
  else ([], now)
termination_by endTime - now
decreasing_by omega

/-- Model of `wait_for_s3_objects(bucket_name, wait_time)`: the deadline
`end_time = time.time() + wait_time` is computed once at entry (clock value
`start`), then the polling loop runs against that absolute deadline. -/
def wait_for_s3_objects (listS3 : Nat → Except ClientError S3Listing)
    (start wait_time : Nat) : List String × Nat :=
  pollLoop listS3 (start + wait_time) start

/-- The listing call at time `u` returns normally with `KeyCount = 0`. -/
abbrev emptyOkAt (listS3 : Nat → Except ClientError S3Listing) (u : Nat) : Prop :=
  ∃ l, listS3 u = Except.ok l ∧ l.keyCount = 0

/-! ### Trigger Generator (`invoke_lambda`, lines 44-71) -/

/-- One submitted invocation payload:
`{"test": f"message-{i}", "timestamp": time.time()}`. -/
structure Submission where
  tag : String
  timestamp : Nat
deriving DecidableEq

/-- The payload built at loop index `i` when the clock reads `t`. -/
def mkPayload (i t : Nat) : Submission :=
  ⟨"message-" ++ Nat.repr i, t⟩

/-- What one run of `invoke_lambda` did: its boolean return value, the
submissions it issued (in order), and, per acknowledged submission, whether
its status code was logged as successful (`200 <= StatusCode < 300`). -/
structure InvokeRun where
  result : Bool
  submissions : List Submission
  okLogged : List Bool
deriving DecidableEq

/-- The `for i in range(num_invocations)` loop of `invoke_lambda`, with
`remaining` iterations left, current index `i` and clock `t`.  Each
iteration builds the payload, calls `lambda_client.invoke` (a `.error`
models `ClientError`: the code logs and returns `False` at once, issuing no
further submissions), and on a normal return logs the invocation as
successful exactly when the status code is in the 2xx range — the status
code affects nothing but that log line — then sleeps 1 second and
continues. -/
def invokeLoop (invoke : Nat → Except ClientError Nat) :
    Nat → Nat → Nat → InvokeRun
  | 0, _, _ => ⟨true, [], []⟩
  | remaining + 1, i, t =>
    match invoke i with
    | .error _ => ⟨false, [mkPayload i t], []⟩
    | .ok status =>
      let logOk := decide (200 ≤ status) && decide (status < 300)
      let r := invokeLoop invoke remaining (i + 1) (t + 1)
      ⟨r.result, mkPayload i t :: r.submissions, logOk :: r.okLogged⟩

/-- Model of `invoke_lambda(function_name, num_invocations)` starting at clock 0. -/
def invoke_lambda (invoke : Nat → Except ClientError Nat) (n : Nat) :
    InvokeRun :=
  invokeLoop invoke n 0 0

/-! ### Log Checker (`check_cloudwatch_logs`, lines 73-107) -/

/-- One CloudWatch log event. -/
structure LogEvent where
  timestamp : Nat
  message : String
deriving DecidableEq

/-- Model of `check_cloudwatch_logs(log_group_name)`.  `describeStreams` models
`describe_log_streams` (already ordered by `LastEventTime` descending), and
`getEvents` models `get_log_events` on a stream name.  Both calls sit in a
single `try` whose `except ClientError` returns `False`. -/
def check_cloudwatch_logs (describeStreams : Except ClientError (List String))
    (getEvents : String → Except ClientError (List LogEvent)) : Bool :=
  match describeStreams with
  | .error _ => false
  | .ok streams =>
    match streams with
    | [] => false
    | streamName :: _ =>
      match getEvents streamName with
      | .error _ => false
      | .ok events => !events.isEmpty

/-! ### Queue Checker (`check_sqs_messages`, lines 136-172) -/

/-- An SQS message as returned by `receive_message`. -/
structure SQSMessage where
  body : String
  receiptHandle : String
deriving DecidableEq

/-- How a call of `check_sqs_messages` terminates: `returned b` is a normal
`return b`; `raised e` is an exception escaping the function (the `try`
block only catches `ClientError`, so a `json.JSONDecodeError` from
`json.loads` propagates to the caller). -/
inductive SQSOutcome where
  | returned (b : Bool)
  | raised (e : JsonError)
deriving DecidableEq

/-- The `for message in messages` loop resetting each message's visibility
timeout to 0.  Returns the boolean result of the enclosing function (a
`ClientError` from `change_message_visibility` is caught by the enclosing
`except` and yields `False`) together with the receipt handles whose
visibility was actually reset, in order. -/
def resetLoop (changeVisibility : String → Except ClientError Unit) :
    List SQSMessage → Bool × List String
  | [] => (true, [])
  | m :: ms =>
    match changeVisibility m.receiptHandle with
    | .error _ => (false, [])
    | .ok _ =>
      let r := resetLoop changeVisibility ms
      (r.1, m.receiptHandle :: r.2)

/-- Model of `check_sqs_messages(queue_url)`.  `receive` models `receive_message`
(max 10 messages, 10 s long poll); `parseJson` models `json.loads` on the
first message's body; `changeVisibility` models `change_message_visibility`
with `VisibilityTimeout=0` on a receipt handle.  Returns the outcome
together with the receipt handles that were reset. -/
def check_sqs_messages (receive : Except ClientError (List SQSMessage))
    (parseJson : String → Except JsonError String)
    (changeVisibility : String → Except ClientError Unit) :
    SQSOutcome × List String :=
  match receive with
  | .error _ => (.returned false, [])
  | .ok [] => (.returned false, [])
  | .ok (m :: ms) =>
    match parseJson m.body with
    | .error e => (.raised e, [])
    | .ok _ =>
      let r := resetLoop changeVisibility (m :: ms)
      (.returned r.1, r.2)

/-! ### Orchestrator (`main`, lines 174-209)

`main` calls the four stages unconditionally in a fixed order; here the
stage results are the parameters and the fixed call sequence is recorded as
a trace.  (This models runs in which no checker raises an uncaught
exception; the stage results themselves are arbitrary.) -/

/-- The four pipeline stages, in the order `main` runs them. -/
inductive Stage where
  | trigger
  | logs
  | objects
  | queue
deriving DecidableEq

/-- Model of `main()` (named `mainRun` here; Lean reserves `main`):
accumulate `success`, starting `True`; step 1 clears it if
`invoke_lambda` returned `False`, step 3 if `check_cloudwatch_logs`
returned `False`, step 4 if `wait_for_s3_objects` returned an empty
listing; step 5's `check_sqs_messages` result is only logged.  Returns
the exit code (`0` on success, `1` otherwise) and the stage-call trace. -/
def mainRun (triggerResult logsResult : Bool) (objectsResult : List String)
    (queueResult : Bool) : Nat × List Stage :=
  let success := true
  let trace : List Stage := [Stage.trigger]
  let success := if triggerResult then success else false
  let trace := trace ++ [Stage.logs]
  let success := if logsResult then success else false
  let trace := trace ++ [Stage.objects]
  let success := if objectsResult.isEmpty then false else success
  let trace := trace ++ [Stage.queue]
  let _ := queueResult
  (if success then 0 else 1, trace)

/-! ### Compute function (`lambda_function.py`, `lambda_handler`, lines 18-42)

The incoming event is a JSON value (the Lambda invocation payload after
deserialisation).  Python dictionary access `v[k]` on the event's parts is
modelled by `jGet` (a `KeyError` for a missing key on a dict, a `TypeError`
for string indexing into a non-dict), and `k in v` by `jHasKey` (key
membership for dict values). -/

/-- A JSON value. -/
inductive JValue where
  | null
  | bool (b : Bool)
  | num (n : Int)
  | str (s : String)
  | arr (elems : List JValue)
  | obj (fields : List (String × JValue))

/-- A Python exception raised while processing the event. -/
inductive PyErr where
  | keyError (k : String)
  | typeError

/-- Python `v[k]` for a string key `k`. -/
def jGet : JValue → String → Except PyErr JValue
  | .obj fields, k =>
    match fields.lookup k with
    | some x => .ok x
    | none => .error (.keyError k)
  | _, _ => .error .typeError

/-- Python `k in v` for a dict value `v`. -/
def jHasKey : JValue → String → Bool
  | .obj fields, k => fields.any (fun p => p.1 == k)
  | _, _ => false

/-- The lines the handler writes through `logger`; fields carry the JSON
values interpolated into the message. -/
inductive LogEntry where
  | receivedEvent (event : JValue)
  | s3Created (bucket key : JValue)
  | sqsReceived (body : JValue)
  | errorProcessing (e : PyErr)

/-- The statusCode/body dictionary the handler returns. -/
structure LambdaResponse where
  statusCode : Nat
  body : String

/-- The body of the `for record in event['Records']` loop: an `s3` record
logs bucket name and object key, an `sqs` record logs `record['body']`,
any other record logs nothing.  A missing key raises. -/
def processRecord (record : JValue) : Except PyErr (List LogEntry) :=
  if jHasKey record "s3" then
    match jGet record "s3" with
    | .error e => .error e
    | .ok s3 =>
      match jGet s3 "bucket" with
      | .error e => .error e
      | .ok bucketObj =>
        match jGet bucketObj "name" with
        | .error e => .error e
        | .ok bucket =>
          match jGet s3 "object" with
          | .error e => .error e
          | .ok objectObj =>
            match jGet objectObj "key" with
            | .error e => .error e
            | .ok key => .ok [.s3Created bucket key]
  else if jHasKey record "sqs" then
    match jGet record "body" with
    | .error e => .error e
    | .ok body => .ok [.sqsReceived body]
  else
    .ok []

/-- The record loop.  Returns the log lines written before any exception,
and the exception if one was raised. -/
def processRecords : List JValue → List LogEntry × Option PyErr
  | [] => ([], none)
  | r :: rs =>
    match processRecord r with
    | .error e => ([], some e)
    | .ok ls =>
      let rest := processRecords rs
      (ls ++ rest.1, rest.2)

/-- Model of `lambda_handler(event, context)`: log the received event; inside the
`try`, if the event has a `Records` key iterate over the records (iterating
a non-list raises `TypeError`); on normal completion return the fixed
200 acknowledgment; on an exception log it and re-raise (the `.error`
result).  Returns the outcome together with all log lines written. -/
def lambda_handler (event : JValue) :
    Except PyErr LambdaResponse × List LogEntry :=
  let header := LogEntry.receivedEvent event
  let processed : List LogEntry × Option PyErr :=
    if jHasKey event "Records" then
      match jGet event "Records" with
      | .ok (.arr recs) => processRecords recs
      | .ok _ => ([], some .typeError)
      | .error e => ([], some e)
    else ([], none)
  match processed with
  | (lines, none) =>
    (.ok ⟨200, "\x22Successfully processed event\x22"⟩, header :: lines)
  | (lines, some e) =>
    (.error e, header :: lines ++ [.errorProcessing e])

/-- An example invocation event: a `Records` collection holding one
storage-object-creation record and one queue-message record. -/
def exampleEvent : JValue :=
  .obj [("Records", .arr [
    .obj [("s3", .obj [("bucket", .obj [("name", .str "b")]),
                       ("object", .obj [("key", .str "k")])])],
    .obj [("sqs", .str "x"), ("body", .str "hello")]])]

/-- An example invocation event whose single record has an `s3` entry with
no `bucket` key, so processing raises `KeyError('bucket')`. -/
def badEvent : JValue :=
  .obj [("Records", .arr [.obj [("s3", .obj [])]])]

/-! ### Decimal rendering

`f"message-{i}"` renders `i` in decimal, i.e. via `Nat.repr` in this
embedding.  Distinctness of the generated tags needs injectivity of
`Nat.repr`, proved here through a reference digit list and its value
function. -/

/-- Decimal digit characters of `n`, most significant first. -/
def digitsOf (n : Nat) : List Char :=
  if _h : n < 10 then [Nat.digitChar n]
  else digitsOf (n / 10) ++ [Nat.digitChar (n % 10)]
termination_by n
decreasing_by exact Nat.div_lt_self (by omega) (by omega)

/-- The numeric value of a digit-character list, most significant first. -/
def valOfDigits : List Char → Nat
  | [] => 0
  | c :: cs => (c.toNat - 48) * 10 ^ cs.length + valOfDigits cs

theorem valOfDigits_append_singleton (l : List Char) (c : Char) :
    valOfDigits (l ++ [c]) = 10 * valOfDigits l + (c.toNat - 48) := by
  induction l with
  | nil => simp [valOfDigits]
  | cons d l ih =>
    simp only [List.cons_append, valOfDigits, List.append_eq, ih,
      List.length_append, List.length_cons, List.length_nil, pow_succ, pow_zero]
    ring

theorem digitChar_val (d : Nat) (h : d < 10) : (Nat.digitChar d).toNat - 48 = d := by
  interval_cases d <;> decide

theorem valOfDigits_digitsOf (n : Nat) : valOfDigits (digitsOf n) = n := by
  induction n using Nat.strong_induction_on with
  | _ n ih =>
    by_cases h : n < 10
    · rw [digitsOf]
      simp [h, valOfDigits, digitChar_val n h]
    · rw [digitsOf]
      simp only [h, dif_neg, not_false_iff]
      rw [valOfDigits_append_singleton,
        ih (n / 10) (Nat.div_lt_self (by omega) (by omega)),
        digitChar_val (n % 10) (Nat.mod_lt _ (by omega))]
      omega

theorem toDigitsCore_eq_digitsOf (fuel : Nat) :
    ∀ (n : Nat) (ds : List Char), n < fuel →
      Nat.toDigitsCore 10 fuel n ds = digitsOf n ++ ds := by
  induction fuel with
  | zero => intro n ds h; omega
  | succ fuel ih =>
    intro n ds h
    show (if n / 10 = 0 then Nat.digitChar (n % 10) :: ds
      else Nat.toDigitsCore 10 fuel (n / 10) (Nat.digitChar (n % 10) :: ds)) =
      digitsOf n ++ ds
    by_cases h10 : n / 10 = 0
    · have hn : n < 10 := by omega
      rw [if_pos h10, digitsOf]
      simp [hn, Nat.mod_eq_of_lt hn]
    · have hge : ¬ n < 10 := by
        intro hc
        exact h10 (Nat.div_eq_of_lt hc)
      have hlt : n / 10 < fuel :=
        lt_of_lt_of_le (Nat.div_lt_self (by omega) (by omega)) (by omega)
      rw [if_neg h10, ih (n / 10) _ hlt]
      conv_rhs => rw [digitsOf]
      simp [hge]

theorem toDigits_eq_digitsOf (n : Nat) : Nat.toDigits 10 n = digitsOf n := by
  rw [Nat.toDigits, toDigitsCore_eq_digitsOf (n + 1) n [] (Nat.lt_succ_self n)]
  simp

theorem digitsOf_injective : Function.Injective digitsOf := by
  intro a b h
  have := congrArg valOfDigits h
  simpa [valOfDigits_digitsOf] using this

theorem nat_repr_injective : Function.Injective Nat.repr := by
  intro a b h
  apply digitsOf_injective
  have hd := congrArg String.data h
  simpa [Nat.repr, List.asString, toDigits_eq_digitsOf] using hd

theorem mkPayload_tag_inj {i j t t' : Nat}
    (h : (mkPayload i t).tag = (mkPayload j t').tag) : i = j := by
  apply nat_repr_injective
  have hd := congrArg String.data h
  simp only [mkPayload, String.data_append] at hd
  exact String.ext (List.append_cancel_left hd)

/-! ## Helper lemmas -/

theorem resetLoop_all_ok (changeVisibility : String → Except ClientError Unit)
    (hok : ∀ h, changeVisibility h = .ok ()) (ms : List SQSMessage) :
    resetLoop changeVisibility ms = (true, ms.map SQSMessage.receiptHandle) := by
  induction ms with
  | nil => rfl
  | cons m ms ih => simp [resetLoop, hok m.receiptHandle, ih]

theorem invokeLoop_result_false_iff (invoke : Nat → Except ClientError Nat) :
    ∀ k i t, (invokeLoop invoke k i t).result = false ↔
      ∃ j, j < k ∧ ∃ e, invoke (i + j) = .error e := by
  intro k
  induction k with
  | zero => intro i t; simp [invokeLoop]
  | succ k ih =>
    intro i t
    cases hinv : invoke i with
    | error e =>
      simp only [invokeLoop, hinv]
      constructor
      · intro _
        exact ⟨0, by omega, e, by simpa using hinv⟩
      · intro _; trivial
    | ok st =>
      simp only [invokeLoop, hinv]
      rw [ih (i + 1) (t + 1)]
      constructor
      · rintro ⟨j, hj, e, he⟩
        exact ⟨j + 1, by omega, e, by rwa [show i + (j + 1) = i + 1 + j by omega]⟩
      · rintro ⟨j, hj, e, he⟩
        cases j with
        | zero =>
          rw [Nat.add_zero, hinv] at he
          cases he
        | succ j =>
          exact ⟨j, by omega, e, by rwa [show i + 1 + j = i + (j + 1) by omega]⟩

theorem invokeLoop_submissions (invoke : Nat → Except ClientError Nat) :
    ∀ k i t, (∀ j, j < k → ∃ st, invoke (i + j) = .ok st) →
      (invokeLoop invoke k i t).submissions =
        (List.range k).map (fun j => mkPayload (i + j) (t + j)) := by
  intro k
  induction k with
  | zero => intro i t _; rfl
  | succ k ih =>
    intro i t hok
    obtain ⟨st, hst⟩ := hok 0 (Nat.succ_pos k)
    rw [Nat.add_zero] at hst
    have hok' : ∀ j, j < k → ∃ st, invoke (i + 1 + j) = .ok st := by
      intro j hj
      have h := hok (j + 1) (by omega)
      rwa [show i + (j + 1) = i + 1 + j by omega] at h
    simp only [invokeLoop, hst]
    rw [ih (i + 1) (t + 1) hok', List.range_succ_eq_map]
    simp only [List.map_cons, List.map_map, Nat.add_zero]
    congr 1
    apply List.map_congr_left
    intro a _
    have h1 : i + 1 + a = i + (a + 1) := by omega
    have h2 : t + 1 + a = t + (a + 1) := by omega
    simp [Function.comp, h1, h2]

theorem lookup_some_any {fields : List (String × JValue)} {k : String}
    {x : JValue} (h : fields.lookup k = some x) :
    fields.any (fun p => p.1 == k) = true := by
  induction fields with
  | nil => cases h
  | cons p ps ih =>
    obtain ⟨a, b⟩ := p
    rw [List.lookup_cons] at h
    by_cases hak : k == a
    · have : a = k := (eq_of_beq hak).symm
      simp [List.any_cons, this]
    · have hak' : (k == a) = false := by simpa using hak
      simp only [hak'] at h
      simp [List.any_cons, ih h]

theorem jGet_ok_hasKey {v : JValue} {k : String} {x : JValue}
    (h : jGet v k = .ok x) : jHasKey v k = true := by
  cases v with
  | obj fields =>
    simp only [jGet] at h
    cases hl : fields.lookup k with
    | none => simp [hl] at h
    | some y => exact lookup_some_any hl
  | null => cases h
  | bool b => cases h
  | num n => cases h
  | str s => cases h
  | arr elems => cases h

theorem processRecord_s3_shape (r : JValue) (ls : List LogEntry)
    (hs3 : jHasKey r "s3" = true) (hok : processRecord r = .ok ls) :
    ∃ bucket key, ls = [.s3Created bucket key] := by
  unfold processRecord at hok
  rw [if_pos hs3] at hok
  cases h1 : jGet r "s3" with
  | error e => simp [h1] at hok
  | ok s3 =>
    simp only [h1] at hok
    cases h2 : jGet s3 "bucket" with
    | error e => simp [h2] at hok
    | ok bucketObj =>
      simp only [h2] at hok
      cases h3 : jGet bucketObj "name" with
      | error e => simp [h3] at hok
      | ok bucket =>
        simp only [h3] at hok
        cases h4 : jGet s3 "object" with
        | error e => simp [h4] at hok
        | ok objectObj =>
          simp only [h4] at hok
          cases h5 : jGet objectObj "key" with
          | error e => simp [h5] at hok
          | ok key =>
            simp only [h5, Except.ok.injEq] at hok
            exact ⟨bucket, key, hok.symm⟩

theorem processRecord_sqs_shape (r : JValue) (ls : List LogEntry)
    (hs3 : jHasKey r "s3" = false) (hsqs : jHasKey r "sqs" = true)
    (hok : processRecord r = .ok ls) :
    ∃ body, ls = [.sqsReceived body] := by
  unfold processRecord at hok
  rw [if_neg (by simp [hs3]), if_pos hsqs] at hok
  cases h1 : jGet r "body" with
  | error e => simp [h1] at hok
  | ok body =>
    simp only [h1, Except.ok.injEq] at hok
    exact ⟨body, hok.symm⟩

theorem processRecords_ok_mem (recs : List JValue)
    (hnone : (processRecords recs).2 = none) :
    ∀ r ∈ recs, ∃ ls, processRecord r = .ok ls ∧
      ∀ x ∈ ls, x ∈ (processRecords recs).1 := by
  induction recs with
  | nil => intro r hr; cases hr
  | cons r0 rs ih =>
    intro r hr
    cases hp : processRecord r0 with
    | error e => simp [processRecords, hp] at hnone
    | ok ls0 =>
      have hnone' : (processRecords rs).2 = none := by
        simpa [processRecords, hp] using hnone
      rcases List.mem_cons.mp hr with rfl | hr'
      · refine ⟨ls0, hp, ?_⟩
        intro x hx
        simp [processRecords, hp]
        exact Or.inl hx
      · obtain ⟨ls, hls, hmem⟩ := ih hnone' r hr'
        refine ⟨ls, hls, ?_⟩
        intro x hx
        simp [processRecords, hp]
        exact Or.inr (hmem x hx)

theorem pollLoop_all_empty (listS3 : Nat → Except ClientError S3Listing)
    (endTime : Nat) (hempty : ∀ u, u < endTime → emptyOkAt listS3 u) :
    ∀ fuel now, endTime - now ≤ fuel →
      (pollLoop listS3 endTime now).1 = [] ∧
        endTime ≤ (pollLoop listS3 endTime now).2 := by
  intro fuel
  induction fuel with
  | zero =>
    intro now hf
    have h : ¬ now < endTime := by omega
    rw [pollLoop]
    simp [h]
    omega
  | succ fuel ih =>
    intro now hf
    by_cases h : now < endTime
    · obtain ⟨l, hl, hk⟩ := hempty now h
      rw [pollLoop]
      simp [h, hl, hk]
      exact ih (now + 10) (by omega)
    · rw [pollLoop]
      simp [h]
      omega

theorem pollLoop_nonempty_early (listS3 : Nat → Except ClientError S3Listing)
    (endTime t : Nat)
    (hne : ∀ u, t ≤ u → ∃ l, listS3 u = .ok l ∧ 0 < l.keyCount) :
    ∀ fuel now, endTime - now ≤ fuel → now < t + 10 →
      (pollLoop listS3 endTime now).2 < t + 10 := by
  intro fuel
  induction fuel with
  | zero =>
    intro now hf hlt
    have h : ¬ now < endTime := by omega
    rw [pollLoop]
    simpa [h] using hlt
  | succ fuel ih =>
    intro now hf hlt
    by_cases h : now < endTime
    · by_cases hnt : t ≤ now
      · obtain ⟨l, hl, hk⟩ := hne now hnt
        rw [pollLoop]
        simpa [h, hl, hk] using hlt
      · cases hl : listS3 now with
        | error e =>
          rw [pollLoop]
          simpa [h, hl] using hlt
        | ok l =>
          by_cases hk : 0 < l.keyCount
          · rw [pollLoop]
            simpa [h, hl, hk] using hlt
          · rw [pollLoop]
            simp [h, hl, hk]
            exact ih (now + 10) (by omega) (by omega)
    · rw [pollLoop]
      simpa [h] using hlt

theorem pollLoop_reach (listS3 : Nat → Except ClientError S3Listing)
    (endTime : Nat) :
    ∀ k now,
      (∀ j, j < k → now + 10 * j < endTime ∧ emptyOkAt listS3 (now + 10 * j)) →
      pollLoop listS3 endTime now = pollLoop listS3 endTime (now + 10 * k) := by
  intro k
  induction k with
  | zero => intro now _; simp
  | succ k ih =>
    intro now hpre
    have h0 := hpre 0 (Nat.succ_pos k)
    rw [Nat.mul_zero, Nat.add_zero] at h0
    obtain ⟨hlt, l, hl, hk⟩ := h0
    have step : pollLoop listS3 endTime now = pollLoop listS3 endTime (now + 10) := by
      rw [pollLoop]
      simp [hlt, hl, hk]
    have hpre' : ∀ j, j < k →
        now + 10 + 10 * j < endTime ∧ emptyOkAt listS3 (now + 10 + 10 * j) := by
      intro j hj
      have h := hpre (j + 1) (by omega)
      rwa [show now + 10 * (j + 1) = now + 10 + 10 * j by ring] at h
    rw [step, ih (now + 10) hpre']
    congr 1
    omega

/-! ## Claims -/

/-- C1: the claim says a parse failure on the first message's body does not
crash the Queue Checker and every received message still has its visibility
reset.  In the code, `json.loads` raising is not caught (`except` covers
only `ClientError`) and the reset loop is only reached after a successful
parse: on a parse failure the checker raises and resets nothing. -/
theorem c1_counterexample :
    check_sqs_messages (.ok [⟨"", "h1"⟩]) (fun _ => .error ⟨"Expecting value"⟩)
        (fun _ => .ok ()) =
      (.raised ⟨"Expecting value"⟩, []) := by decide

/-- C1 (amended): when the first message's body parses successfully and the
visibility calls succeed, every received message's visibility is reset to
zero exactly once (in order); when the parse fails, the checker raises the
parse error and resets no visibility at all. -/
theorem c1_amended (m : SQSMessage) (ms : List SQSMessage)
    (parseJson : String → Except JsonError String)
    (changeVisibility : String → Except ClientError Unit) :
    ((∃ j, parseJson m.body = .ok j) → (∀ h, changeVisibility h = .ok ()) →
      check_sqs_messages (.ok (m :: ms)) parseJson changeVisibility =
        (.returned true, (m :: ms).map SQSMessage.receiptHandle))
  ∧ (∀ e, parseJson m.body = .error e →
      check_sqs_messages (.ok (m :: ms)) parseJson changeVisibility =
        (.raised e, [])) := by
  constructor
  · rintro ⟨j, hj⟩ hvis
    simp [check_sqs_messages, hj, resetLoop_all_ok changeVisibility hvis]
  · intro e he
    simp [check_sqs_messages, he]

theorem c1_witness :
    check_sqs_messages (.ok [⟨"1", "h1"⟩, ⟨"2", "h2"⟩]) (fun s => .ok s)
        (fun _ => .ok ()) = (.returned true, ["h1", "h2"])
  ∧ check_sqs_messages (.ok [⟨"", "h3"⟩]) (fun _ => .error ⟨"Expecting value"⟩)
        (fun _ => .ok ()) = (.raised ⟨"Expecting value"⟩, []) :=
  ⟨(c1_amended ⟨"1", "h1"⟩ [⟨"2", "h2"⟩] (fun s => .ok s) (fun _ => .ok ())).1
      ⟨"1", rfl⟩ (fun _ => rfl),
    (c1_amended ⟨"", "h3"⟩ [] (fun _ => .error ⟨"Expecting value"⟩)
      (fun _ => .ok ())).2 ⟨"Expecting value"⟩ rfl⟩

/-- C2: the claim says a single non-2xx acknowledgment fails the whole
step.  In the code a non-2xx `StatusCode` is only logged
(`logger.error(...)`); the function still returns `True`.  Here one
submission is acknowledged with status 500, logged as a failure, and the
step still reports success. -/
theorem c2_counterexample :
    (invoke_lambda (fun _ => .ok 500) 1).result = true ∧
      (invoke_lambda (fun _ => .ok 500) 1).okLogged = [false] := by decide

/-- C2 (amended): `invoke_lambda` reports failure exactly when some
submission raises a `ClientError`; acknowledged status codes (2xx or not)
never affect the result. -/
theorem c2_amended (invoke : Nat → Except ClientError Nat) (n : Nat) :
    (invoke_lambda invoke n).result = false ↔
      ∃ i, i < n ∧ ∃ e, invoke i = .error e := by
  have h := invokeLoop_result_false_iff invoke n 0 0
  simpa using h

/-- C3: the orchestrator's exit code is 1 iff at least one of
trigger submission, log check, object watch failed (and 0 otherwise), and
the queue-check outcome never changes the exit code. -/
theorem c3_exit_code (triggerResult logsResult : Bool)
    (objectsResult : List String) (queueResult : Bool) :
    ((mainRun triggerResult logsResult objectsResult queueResult).1 = 1 ↔
      (triggerResult = false ∨ logsResult = false ∨ objectsResult = []))
  ∧ ((mainRun triggerResult logsResult objectsResult queueResult).1 = 0 ↔
      ¬(triggerResult = false ∨ logsResult = false ∨ objectsResult = []))
  ∧ (∀ queueResult',
      (mainRun triggerResult logsResult objectsResult queueResult).1 =
        (mainRun triggerResult logsResult objectsResult queueResult').1) := by
  cases triggerResult <;> cases logsResult <;> cases objectsResult <;>
    simp [mainRun]

/-- C4: the claim says every fault raised inside a leaf checker is
converted into that checker's boolean/empty result and never propagates.
A `json.JSONDecodeError` inside `check_sqs_messages` is not caught (the
`except` clause covers only `ClientError`), so it propagates out of the
checker: here a queue receive succeeds with two messages whose first body
fails to parse, and the checker terminates by raising. -/
theorem c4_counterexample :
    check_sqs_messages (.ok [⟨"not json", "hA"⟩, ⟨"x", "hB"⟩])
        (fun _ => .error ⟨"Expecting value"⟩) (fun _ => .ok ()) =
      (.raised ⟨"Expecting value"⟩, []) := by decide

/-- C4 (amended): every `ClientError` fault raised inside a leaf checker is
converted into that checker's boolean/empty result — a fault on either log
call yields `false`, a fault on a poll yields the empty listing, a fault on
the queue receive or on a visibility reset yields `false`, a fault on a
submission yields `false` — but a JSON parse fault in `check_sqs_messages`
propagates out of the checker instead. -/
theorem c4_amended :
    (∀ (e : ClientError) getEvents,
      check_cloudwatch_logs (.error e) getEvents = false)
  ∧ (∀ (s : String) rest getEvents (e : ClientError), getEvents s = .error e →
      check_cloudwatch_logs (.ok (s :: rest)) getEvents = false)
  ∧ (∀ listS3 endTime now (e : ClientError), now < endTime →
      listS3 now = .error e → pollLoop listS3 endTime now = ([], now))
  ∧ (∀ (e : ClientError) parseJson changeVisibility,
      check_sqs_messages (.error e) parseJson changeVisibility =
        (.returned false, []))
  ∧ (∀ invoke n i (e : ClientError), i < n → invoke i = .error e →
      (invoke_lambda invoke n).result = false)
  ∧ (∀ (m : SQSMessage) ms parseJson changeVisibility (j : String)
        (e : ClientError), parseJson m.body = .ok j →
      changeVisibility m.receiptHandle = .error e →
      check_sqs_messages (.ok (m :: ms)) parseJson changeVisibility =
        (.returned false, []))
  ∧ (∀ (m : SQSMessage) ms parseJson changeVisibility (e : JsonError),
      parseJson m.body = .error e →
      (check_sqs_messages (.ok (m :: ms)) parseJson changeVisibility).1 =
        .raised e) := by
  refine ⟨?_, ?_, ?_, ?_, ?_, ?_, ?_⟩
  · intro e getEvents
    rfl
  · intro s rest getEvents e he
    simp [check_cloudwatch_logs, he]
  · intro listS3 endTime now e hlt he
    rw [pollLoop]
    simp [hlt, he]
  · intro e parseJson changeVisibility
    rfl
  · intro invoke n i e hi he
    rw [show invoke_lambda invoke n = invokeLoop invoke n 0 0 from rfl,
      invokeLoop_result_false_iff]
    exact ⟨i, hi, e, by simpa using he⟩
  · intro m ms parseJson changeVisibility j e hj he
    simp [check_sqs_messages, hj, resetLoop, he]
  · intro m ms parseJson changeVisibility e he
    simp [check_sqs_messages, he]

theorem c4_witness :
    check_cloudwatch_logs (.error ⟨"AccessDenied"⟩) (fun _ => .ok [⟨1, "m"⟩]) = false
  ∧ pollLoop (fun _ => .error ⟨"Throttled"⟩) 40 0 = ([], 0)
  ∧ (invoke_lambda (fun _ => .error ⟨"Throttled"⟩) 3).result = false
  ∧ check_sqs_messages (.ok [⟨"2", "hC"⟩]) (fun s => .ok s)
      (fun _ => .error ⟨"Denied"⟩) = (.returned false, []) :=
  ⟨c4_amended.1 ⟨"AccessDenied"⟩ (fun _ => .ok [⟨1, "m"⟩]),
    c4_amended.2.2.1 (fun _ => .error ⟨"Throttled"⟩) 40 0 ⟨"Throttled"⟩
      (by omega) rfl,
    c4_amended.2.2.2.2.1 (fun _ => .error ⟨"Throttled"⟩) 3 0 ⟨"Throttled"⟩
      (by omega) rfl,
    c4_amended.2.2.2.2.2.1 ⟨"2", "hC"⟩ [] (fun s => .ok s)
      (fun _ => .error ⟨"Denied"⟩) "2" ⟨"Denied"⟩ rfl rfl⟩

/-- C5: the Object-Store Watcher computes its deadline once at entry
(`end_time = time.time() + wait_time`, here `start + wait_time`) and
re-checks the clock against that absolute deadline before every poll; if
every poll before the deadline sees an empty listing the watcher returns at
or after the deadline, never earlier, and if the listing is non-empty from
some time `t` on (with `start ≤ t < deadline`) the watcher returns within
one poll interval (10 seconds) after `t`. -/
theorem c5_watcher_deadline (listS3 : Nat → Except ClientError S3Listing)
    (start wait_time : Nat) :
    ((∀ u, u < start + wait_time → emptyOkAt listS3 u) →
      start + wait_time ≤ (wait_for_s3_objects listS3 start wait_time).2)
  ∧ (∀ t, start ≤ t → t < start + wait_time →
      (∀ u, t ≤ u → ∃ l, listS3 u = .ok l ∧ 0 < l.keyCount) →
      (wait_for_s3_objects listS3 start wait_time).2 ≤ t + 10) := by
  constructor
  · intro hempty
    exact (pollLoop_all_empty listS3 (start + wait_time) hempty
      (start + wait_time - start) start (by omega)).2
  · intro t hst hlt hne
    have h := pollLoop_nonempty_early listS3 (start + wait_time) t hne
      (start + wait_time - start) start (by omega) (by omega)
    unfold wait_for_s3_objects
    omega

theorem c5_witness :
    40 ≤ (wait_for_s3_objects (fun _ => Except.ok ⟨0, []⟩) 0 40).2
  ∧ (wait_for_s3_objects
      (fun u => if u < 15 then Except.ok ⟨0, []⟩ else Except.ok ⟨2, ["a", "b"]⟩)
      0 40).2 ≤ 25 := by
  constructor
  · have h := (c5_watcher_deadline (fun _ => Except.ok ⟨0, []⟩) 0 40).1
      (fun u _ => ⟨⟨0, []⟩, rfl, rfl⟩)
    simpa using h
  · have h := (c5_watcher_deadline
      (fun u => if u < 15 then Except.ok ⟨0, []⟩ else Except.ok ⟨2, ["a", "b"]⟩)
      0 40).2 15 (by omega) (by omega)
      (fun u hu => ⟨⟨2, ["a", "b"]⟩, by simp [show ¬ u < 15 by omega], by decide⟩)
    simpa using h

/-- C6: the Object-Store Watcher returns the full `Contents` listing when
the poll it reaches at time `start + 10 * k` sees `KeyCount > 0`; it
returns an empty collection (its return type, not an error) when every
poll before the deadline is empty; and a `ClientError` on the poll it
reaches stops the watch immediately — the clock does not advance past that
poll — returning the empty collection. -/
theorem c6_watcher_results (listS3 : Nat → Except ClientError S3Listing)
    (start wait_time : Nat) :
    (∀ k l,
      (∀ j, j < k →
        start + 10 * j < start + wait_time ∧ emptyOkAt listS3 (start + 10 * j)) →
      start + 10 * k < start + wait_time →
      listS3 (start + 10 * k) = .ok l → 0 < l.keyCount →
      wait_for_s3_objects listS3 start wait_time = (l.contents, start + 10 * k))
  ∧ ((∀ u, u < start + wait_time → emptyOkAt listS3 u) →
      (wait_for_s3_objects listS3 start wait_time).1 = [])
  ∧ (∀ k (e : ClientError),
      (∀ j, j < k →
        start + 10 * j < start + wait_time ∧ emptyOkAt listS3 (start + 10 * j)) →
      start + 10 * k < start + wait_time →
      listS3 (start + 10 * k) = .error e →
      wait_for_s3_objects listS3 start wait_time = ([], start + 10 * k)) := by
  refine ⟨?_, ?_, ?_⟩
  · intro k l hpre hlt hl hk
    unfold wait_for_s3_objects
    rw [pollLoop_reach listS3 (start + wait_time) k start hpre, pollLoop]
    simp [hlt, hl, hk]
  · intro hempty
    exact (pollLoop_all_empty listS3 (start + wait_time) hempty
      (start + wait_time - start) start (by omega)).1
  · intro k e hpre hlt hl
    unfold wait_for_s3_objects
    rw [pollLoop_reach listS3 (start + wait_time) k start hpre, pollLoop]
    simp [hlt, hl]

theorem c6_witness :
    wait_for_s3_objects
      (fun u => if u < 15 then Except.ok ⟨0, []⟩ else Except.ok ⟨2, ["a", "b"]⟩)
      0 40 = (["a", "b"], 20)
  ∧ wait_for_s3_objects
      (fun u => if u < 5 then Except.ok ⟨0, []⟩ else Except.error ⟨"boom"⟩)
      0 40 = ([], 10) := by
  constructor
  · have h := (c6_watcher_results
      (fun u => if u < 15 then Except.ok ⟨0, []⟩ else Except.ok ⟨2, ["a", "b"]⟩)
      0 40).1 2 ⟨2, ["a", "b"]⟩
      (fun j hj => by
        interval_cases j <;>
          exact ⟨by omega, ⟨0, []⟩, by simp, rfl⟩)
      (by omega) (by simp) (by decide)
    simpa using h
  · have h := (c6_watcher_results
      (fun u => if u < 5 then Except.ok ⟨0, []⟩ else Except.error ⟨"boom"⟩)
      0 40).2.2 1 ⟨"boom"⟩
      (fun j hj => by
        interval_cases j
        exact ⟨by omega, ⟨0, []⟩, by simp, rfl⟩)
      (by omega) (by simp)
    simpa using h

/-- C7: the Log Checker returns `true` iff at least one stream exists and
the window fetched from the most recently active stream (the head of the
descending-ordered stream list) holds at least one event; every other case
— empty stream list, empty event list, transport fault on either call —
yields `false` (the return type rules out throwing). -/
theorem c7_log_checker (describeStreams : Except ClientError (List String))
    (getEvents : String → Except ClientError (List LogEvent)) :
    check_cloudwatch_logs describeStreams getEvents = true ↔
      ∃ s rest events, describeStreams = .ok (s :: rest) ∧
        getEvents s = .ok events ∧ events ≠ [] := by
  cases describeStreams with
  | error e => simp [check_cloudwatch_logs]
  | ok streams =>
    cases streams with
    | nil => simp [check_cloudwatch_logs]
    | cons s rest =>
      cases hg : getEvents s with
      | error e => simp [check_cloudwatch_logs, hg]
      | ok events => simp [check_cloudwatch_logs, hg]

/-- C8: on a fault-free run, `invoke_lambda` issues exactly `n`
submissions, all tags are pairwise distinct, and consecutive submissions
are at least 1 second apart (the loop sleeps 1 second after each). -/
theorem c8_trigger_generator (invoke : Nat → Except ClientError Nat) (n : Nat)
    (hok : ∀ i, i < n → ∃ st, invoke i = .ok st) :
    (invoke_lambda invoke n).submissions.length = n
  ∧ (invoke_lambda invoke n).submissions.Pairwise (fun a b => a.tag ≠ b.tag)
  ∧ (invoke_lambda invoke n).submissions.Chain'
      (fun a b => a.timestamp + 1 ≤ b.timestamp) := by
  have hok0 : ∀ j, j < n → ∃ st, invoke (0 + j) = .ok st := by simpa using hok
  have hsubs := invokeLoop_submissions invoke n 0 0 hok0
  rw [show invoke_lambda invoke n = invokeLoop invoke n 0 0 from rfl, hsubs]
  refine ⟨by simp, ?_, ?_⟩
  · rw [List.pairwise_map]
    refine (List.pairwise_lt_range n).imp ?_
    intro a b hab htag
    exact absurd (mkPayload_tag_inj htag) (by omega)
  · rw [List.chain'_map]
    refine ((List.pairwise_lt_range n).imp ?_).chain'
    intro a b hab
    simp only [mkPayload]
    omega

theorem c8_witness :
    (invoke_lambda (fun _ => .ok 202) 3).submissions.length = 3
  ∧ (invoke_lambda (fun _ => .ok 202) 3).submissions.Pairwise
      (fun a b => a.tag ≠ b.tag)
  ∧ (invoke_lambda (fun _ => .ok 202) 3).submissions.Chain'
      (fun a b => a.timestamp + 1 ≤ b.timestamp) :=
  c8_trigger_generator (fun _ => .ok 202) 3 (fun _ _ => ⟨202, rfl⟩)

/-- C9: every run of `lambda_handler` that completes without an internal
exception returns the fixed 200 acknowledgment `{statusCode: 200, body}`,
after logging the received event and one descriptive line for each record
of the `Records` collection matching the storage-object-creation shape (an
`s3` entry) or the queue-message shape (an `sqs` entry); an internal
exception is logged as the final line and re-raised to the caller (the
`.error` result), never swallowed. -/
theorem c9_lambda_handler (event : JValue) :
    (∀ resp logs, lambda_handler event = (.ok resp, logs) →
      resp.statusCode = 200 ∧
      resp.body = "\"Successfully processed event\"" ∧
      LogEntry.receivedEvent event ∈ logs ∧
      ∀ recs, jGet event "Records" = .ok (.arr recs) →
        ∀ r ∈ recs,
          (jHasKey r "s3" = true →
            ∃ bucket key, LogEntry.s3Created bucket key ∈ logs)
        ∧ (jHasKey r "s3" = false → jHasKey r "sqs" = true →
            ∃ body, LogEntry.sqsReceived body ∈ logs))
  ∧ (∀ e logs, lambda_handler event = (.error e, logs) →
      logs.getLast? = some (.errorProcessing e)) := by
  constructor
  · intro resp logs hrun
    unfold lambda_handler at hrun
    cases hkey : jHasKey event "Records" with
    | false =>
      simp [hkey] at hrun
      obtain ⟨rfl, rfl⟩ := hrun
      refine ⟨rfl, rfl, by simp, ?_⟩
      intro recs hrec
      have h := jGet_ok_hasKey hrec
      simp [hkey] at h
    | true =>
      cases hget : jGet event "Records" with
      | error e => simp [hkey, hget] at hrun
      | ok v =>
        cases v with
        | arr recs =>
          cases hpr : processRecords recs with
          | mk lines err =>
            cases err with
            | some e0 => simp [hkey, hget, hpr] at hrun
            | none =>
              simp [hkey, hget, hpr] at hrun
              obtain ⟨rfl, rfl⟩ := hrun
              refine ⟨rfl, rfl, by simp, ?_⟩
              intro recs' hrec'
              injection hrec' with h
              injection h with h2
              subst h2
              intro r hr
              obtain ⟨ls, hok, hsub⟩ :=
                processRecords_ok_mem recs (by rw [hpr]) r hr
              constructor
              · intro hs3
                obtain ⟨bucket, key, rfl⟩ := processRecord_s3_shape r ls hs3 hok
                refine ⟨bucket, key, ?_⟩
                have hx : LogEntry.s3Created bucket key ∈ (processRecords recs).1 :=
                  hsub _ (by simp)
                rw [hpr] at hx
                exact List.mem_cons_of_mem _ hx
              · intro hs3 hsqs
                obtain ⟨body, rfl⟩ := processRecord_sqs_shape r ls hs3 hsqs hok
                refine ⟨body, ?_⟩
                have hx : LogEntry.sqsReceived body ∈ (processRecords recs).1 :=
                  hsub _ (by simp)
                rw [hpr] at hx
                exact List.mem_cons_of_mem _ hx
        | null => simp [hkey, hget] at hrun
        | bool b => simp [hkey, hget] at hrun
        | num n => simp [hkey, hget] at hrun
        | str s => simp [hkey, hget] at hrun
        | obj fields => simp [hkey, hget] at hrun
  · intro e logs hrun
    unfold lambda_handler at hrun
    cases hkey : jHasKey event "Records" with
    | false => simp [hkey] at hrun
    | true =>
      cases hget : jGet event "Records" with
      | error e' =>
        simp [hkey, hget] at hrun
        obtain ⟨rfl, rfl⟩ := hrun
        rfl
      | ok v =>
        cases v with
        | arr recs =>
          cases hpr : processRecords recs with
          | mk lines err =>
            cases err with
            | none => simp [hkey, hget, hpr] at hrun
            | some e0 =>
              simp [hkey, hget, hpr] at hrun
              obtain ⟨rfl, rfl⟩ := hrun
              rw [show LogEntry.receivedEvent event :: (lines ++ [LogEntry.errorProcessing e0]) =
                (LogEntry.receivedEvent event :: lines) ++ [LogEntry.errorProcessing e0] from rfl]
              exact List.getLast?_concat _
        | null =>
          simp [hkey, hget] at hrun
          obtain ⟨rfl, rfl⟩ := hrun
          rfl
        | bool b =>
          simp [hkey, hget] at hrun
          obtain ⟨rfl, rfl⟩ := hrun
          rfl
        | num n =>
          simp [hkey, hget] at hrun
          obtain ⟨rfl, rfl⟩ := hrun
          rfl
        | str s =>
          simp [hkey, hget] at hrun
          obtain ⟨rfl, rfl⟩ := hrun
          rfl
        | obj fields =>
          simp [hkey, hget] at hrun
          obtain ⟨rfl, rfl⟩ := hrun
          rfl

theorem c9_witness :
    ((lambda_handler exampleEvent).1 =
        .ok ⟨200, "\"Successfully processed event\""⟩
      ∧ (∃ bucket key,
          LogEntry.s3Created bucket key ∈ (lambda_handler exampleEvent).2)
      ∧ (∃ body, LogEntry.sqsReceived body ∈ (lambda_handler exampleEvent).2))
  ∧ (lambda_handler badEvent).2.getLast? =
      some (.errorProcessing (.keyError "bucket")) := by
  constructor
  · have h := (c9_lambda_handler exampleEvent).1
      ⟨200, "\"Successfully processed event\""⟩
      [.receivedEvent exampleEvent, .s3Created (.str "b") (.str "k"),
        .sqsReceived (.str "hello")] rfl
    obtain ⟨-, -, -, hrecs⟩ := h
    have hall := hrecs
      [JValue.obj [("s3", .obj [("bucket", .obj [("name", .str "b")]),
                                ("object", .obj [("key", .str "k")])])],
       JValue.obj [("sqs", .str "x"), ("body", .str "hello")]] rfl
    refine ⟨rfl, ?_, ?_⟩
    · exact (hall (JValue.obj [("s3", .obj [("bucket", .obj [("name", .str "b")]),
        ("object", .obj [("key", .str "k")])])]) (by simp)).1 (by decide)
    · exact (hall (JValue.obj [("sqs", .str "x"), ("body", .str "hello")])
        (by simp)).2 (by decide) (by decide)
  · exact (c9_lambda_handler badEvent).2 (.keyError "bucket")
      [.receivedEvent badEvent, .errorProcessing (.keyError "bucket")] rfl

/-- C10: in every run of the orchestrator in which no checker raises, the
four stages are called exactly once each, in the fixed order trigger, logs,
objects, queue — whatever each stage's outcome is. -/
theorem c10_stage_order (triggerResult logsResult : Bool)
    (objectsResult : List String) (queueResult : Bool) :
    (mainRun triggerResult logsResult objectsResult queueResult).2 =
      [Stage.trigger, Stage.logs, Stage.objects, Stage.queue]
  ∧ ∀ s : Stage,
      ((mainRun triggerResult logsResult objectsResult queueResult).2).count s = 1 := by
  refine ⟨rfl, ?_⟩
  intro s
  cases s <;> rfl

example : mainRun true true ["a"] false = (0, [.trigger, .logs, .objects, .queue]) := by decide
example : mainRun true true [] true = (1, [.trigger, .logs, .objects, .queue]) := by decide
example : check_cloudwatch_logs (.ok ["s1"]) (fun _ => .ok [⟨1, "ev"⟩]) = true := by decide
example : check_cloudwatch_logs (.ok []) (fun _ => .ok [⟨1, "ev"⟩]) = false := by decide
example :
    check_sqs_messages (.ok [⟨"nope", "h1"⟩]) (fun _ => .error ⟨"bad"⟩) (fun _ => .ok ()) =
      (.raised ⟨"bad"⟩, []) := by decide
example :
    check_sqs_messages (.ok [⟨"x", "h1"⟩, ⟨"y", "h2"⟩]) (fun _ => .ok "j") (fun _ => .ok ()) =
      (.returned true, ["h1", "h2"]) := by decide
example : (invoke_lambda (fun _ => .ok 500) 1).result = true := by decide
example : invoke_lambda (fun _ => .ok 202) 2 =
    ⟨true, [⟨"message-" ++ Nat.repr 0, 0⟩, ⟨"message-" ++ Nat.repr 1, 1⟩],
      [true, true]⟩ := by decide
